import Mathlib

/-!
Verification of the device-info panel application (`src/www/js/device-info.js`,
the `DeviceInfo` module) and its controller (`src/unnamed/part_000`, the `App`
module) against their natural-language specification.

The JavaScript is shallowly embedded: every embedded definition is a total
Lean function translated from the source.  Asynchronous platform-plugin calls
are modelled by `Except Unit` results (`.ok v` = the promise resolves with
`v`, `.error ()` = the call throws / the promise rejects); a JavaScript
`try { ... } catch` is a `match` on that result.  A function whose every
branch produces a plain value (rather than an `Except`) thereby models a
JavaScript function that never throws.  JavaScript `x || d` on
possibly-missing fields is modelled by the `jsOr*` helpers below, which map
`undefined` (here `Option.none`) and the falsy values `0`, `""`, `false` to
the default, exactly as the source relies on.
-/

/-- JavaScript `x || d` for a possibly-missing string field: `undefined` and
the falsy empty string fall back to `d`. -/
def jsOrStr (x : Option String) (d : String) : String :=
  match x with
  | none => d
  | some s => if s = "" then d else s

/-- JavaScript `x || d` for a possibly-missing boolean field: `undefined` and
`false` fall back to `d`. -/
def jsOrBool (x : Option Bool) (d : Bool) : Bool :=
  match x with
  | none => d
  | some b => b || d

/-- JavaScript `x || d` for a possibly-missing numeric field: `undefined` and
the falsy number `0` fall back to `d`.  Numbers are modelled as rationals
(battery levels are fractions in `[0, 1]`). -/
def jsOrQ (x : Option ℚ) (d : ℚ) : ℚ :=
  match x with
  | none => d
  | some q => if q = 0 then d else q

/-- JavaScript `Math.round` on a (non-negative) rational: round half up. -/
def jsRound (q : ℚ) : ℤ := ⌊q + 1 / 2⌋

/-- Raw result of the Device plugin's `getInfo()` (external capability
contract, spec section 6): every field may be absent. -/
structure RawDeviceInfo where
  model : Option String
  platform : Option String
  operatingSystem : Option String
  osVersion : Option String
  manufacturer : Option String
  isVirtual : Option Bool

/-- Raw result of the Device plugin's `getBatteryInfo()`. -/
structure RawBatteryInfo where
  batteryLevel : Option ℚ
  isCharging : Option Bool

/-- Raw result of the Network plugin's `getStatus()`. -/
structure RawNetworkStatus where
  connected : Bool
  connectionType : Option String

/-- Behaviour of the Device plugin: each method either resolves or throws. -/
structure DevicePlugin where
  getInfo : Except Unit RawDeviceInfo
  getBatteryInfo : Except Unit RawBatteryInfo

/-- Behaviour of the Network plugin.  `addListener` models
`Network.addListener('networkStatusChange', cb)`; its payload is irrelevant
here, only whether the call succeeds. -/
structure NetworkPlugin where
  getStatus : Except Unit RawNetworkStatus
  addListener : Except Unit Unit

/-- Behaviour of the LocalNotifications plugin (`requestPermissions`). -/
structure NotificationsPlugin where
  requestPermissions : Except Unit Unit

/-- The plugin record returned by `getPlugins()` (device-info.js 14-26) when
`window.Capacitor.Plugins` exists; each individual plugin may still be
undefined.  `getPlugins()` itself is modelled as an `Option Plugins`
argument: `none` is the absent bridge (`getPlugins` returns `null`). -/
structure Plugins where
  device : Option DevicePlugin
  network : Option NetworkPlugin
  notifications : Option NotificationsPlugin

/-- Normalized battery part of a device record. -/
structure BatteryRecord where
  level : ℚ
  charging : Bool

/-- Normalized device record produced by `getDeviceInfo` (device-info.js
71-97). -/
structure DeviceRecord where
  model : String
  platform : String
  operatingSystem : String
  osVersion : String
  manufacturer : String
  isVirtual : Bool
  battery : BatteryRecord

/-- Normalized network record produced by `getNetworkStatus` (device-info.js
120-137). -/
structure NetworkRecord where
  connected : Bool
  connectionType : String
  typeText : String

/-- `getFallbackDeviceInfo()` (device-info.js 102-115). -/
def getFallbackDeviceInfo : DeviceRecord :=
  { model := "iOS 设备"
    platform := "ios"
    operatingSystem := "iOS"
    osVersion := "未知"
    manufacturer := "Apple"
    isVirtual := false
    battery := { level := 1, charging := false } }

/-- `getFallbackNetworkStatus()` (device-info.js 142-148). -/
def getFallbackNetworkStatus : NetworkRecord :=
  { connected := false
    connectionType := "none"
    typeText := "无法获取" }

/-- `getNetworkTypeText(type, connected)` (device-info.js 153-164): the raw
(possibly undefined) connection type is mapped to a Chinese label; an
unrecognised or missing type falls back to "未知" via `typeMap[type] || '未知'`. -/
def getNetworkTypeText (connType : Option String) (connected : Bool) : String :=
  if !connected then "未连接"
  else
    match connType with
    | none => "未知"
    | some t =>
      if t = "wifi" then "Wi-Fi"
      else if t = "cellular" then "蜂窝网络"
      else if t = "none" then "无网络"
      else if t = "unknown" then "未知"
      else "未知"

/-- `getDeviceInfo()` (device-info.js 71-97): absent bridge, absent Device
plugin, or a throw from `getInfo`/`getBatteryInfo` yields the fallback
record; otherwise each raw field is defaulted through `||`.  Total: models
"never throws".  `getBatteryInfo` is awaited only after `getInfo` resolves,
hence the nested matches. -/
def getDeviceInfo (plugins : Option Plugins) : DeviceRecord :=
  match plugins with
  | none => getFallbackDeviceInfo
  | some p =>
    match p.device with
    | none => getFallbackDeviceInfo
    | some d =>
      match d.getInfo with
      | .error _ => getFallbackDeviceInfo
      | .ok info =>
        match d.getBatteryInfo with
        | .error _ => getFallbackDeviceInfo
        | .ok batteryId =>
          { model := jsOrStr info.model "未知设备"
            platform := jsOrStr info.platform "未知平台"
            operatingSystem := jsOrStr info.operatingSystem "未知系统"
            osVersion := jsOrStr info.osVersion "未知版本"
            manufacturer := jsOrStr info.manufacturer "未知厂商"
            isVirtual := jsOrBool info.isVirtual false
            battery := { level := jsOrQ batteryId.batteryLevel 1
                         charging := jsOrBool batteryId.isCharging false } }

/-- `getNetworkStatus()` (device-info.js 120-137): absent bridge, absent
Network plugin, or a throw from `getStatus` yields the fallback; note the
raw `connectionType` (not the defaulted one) is what `getNetworkTypeText`
receives.  Total: models "never throws". -/
def getNetworkStatus (plugins : Option Plugins) : NetworkRecord :=
  match plugins with
  | none => getFallbackNetworkStatus
  | some p =>
    match p.network with
    | none => getFallbackNetworkStatus
    | some net =>
      match net.getStatus with
      | .error _ => getFallbackNetworkStatus
      | .ok status =>
        { connected := status.connected
          connectionType := jsOrStr status.connectionType "unknown"
          typeText := getNetworkTypeText status.connectionType status.connected }

/-- `getAppVersion()` (device-info.js 169-172). -/
def getAppVersion : String := "1.0.0"

/-- `getUptime()` (device-info.js 177-196).  `startTime` is the persisted
`appStartTime` timestamp and `now` the current `Date.now()`, both in
milliseconds; `elapsed` is their difference.  The source floors successive
divisions and picks the dominant unit pair. -/
def getUptime (startTime now : Nat) : String :=
  let elapsed := now - startTime
  let seconds := elapsed / 1000
  let minutes := seconds / 60
  let hours := minutes / 60
  let days := hours / 24
  if days > 0 then toString days ++ "天 " ++ toString (hours % 24) ++ "小时"
  else if hours > 0 then toString hours ++ "小时 " ++ toString (minutes % 60) ++ "分钟"
  else if minutes > 0 then toString minutes ++ "分钟 " ++ toString (seconds % 60) ++ "秒"
  else toString seconds ++ "秒"

/-- The full snapshot assembled by `getAllInfo()` (device-info.js 47-66). -/
structure InfoRecord where
  model : String
  platform : String
  operatingSystem : String
  osVersion : String
  manufacturer : String
  isVirtual : Bool
  battery : BatteryRecord
  network : NetworkRecord
  appVersion : String
  uptime : String

/-- `getAllInfo()` (device-info.js 47-66): spreads the device record, adds the
network status, app version and uptime.  Both awaited components are total,
so the surrounding `try`'s catch (which would return `getFallbackInfo()`)
is unreachable and is not part of the value. -/
def getAllInfo (plugins : Option Plugins) (startTime now : Nat) : InfoRecord :=
  let d := getDeviceInfo plugins
  let n := getNetworkStatus plugins
  { model := d.model
    platform := d.platform
    operatingSystem := d.operatingSystem
    osVersion := d.osVersion
    manufacturer := d.manufacturer
    isVirtual := d.isVirtual
    battery := d.battery
    network := n
    appVersion := getAppVersion
    uptime := getUptime startTime now }

/-- The `battery` field of a snapshot as `formatBatteryInfo` reads it:
`info.battery` may be absent (`?.`), and so may each of its fields. -/
structure BatterySnap where
  level : Option ℚ
  charging : Option Bool

/-- Result shape of `formatBatteryInfo` (device-info.js 336-347). -/
structure BatteryFormat where
  level : ℤ
  charging : Bool
  levelClass : String
  text : String

/-- `formatBatteryInfo(info)` (device-info.js 336-347), as a function of the
snapshot's `battery` field (the only part of `info` it reads).
`info.battery?.level || 1` defaults a missing battery, a missing level and
the falsy level `0` to full charge before rounding to a percentage. -/
def formatBatteryInfo (battery : Option BatterySnap) : BatteryFormat :=
  let level := jsRound (jsOrQ (battery.bind (·.level)) 1 * 100)
  let charging := jsOrBool (battery.bind (·.charging)) false
  let levelClass := if level > 50 then "high" else if level > 20 then "medium" else "low"
  { level := level
    charging := charging
    levelClass := levelClass
    text := toString level ++ "% " ++ (if charging then "🔌充电中" else "🔋未充电") }

/-- State of the module-level network subscription (device-info.js 8-9 and the
platform side): `active` lists the handles of subscriptions currently
registered with the Network plugin (in registration order), `networkListener`
is the handle cached in `DeviceInfo.networkListener`, and `next` is the next
fresh handle the platform will hand out. -/
structure ListenerState where
  active : List Nat
  networkListener : Option Nat
  next : Nat

/-- `addNetworkListener(callback)` (device-info.js 274-292): with an absent
bridge or Network plugin, or a throwing `addListener`, the state is
unchanged (the error is caught and only logged); on success the platform
registers a fresh subscription and `this.networkListener` is overwritten
with its handle.  No removal of a previously held subscription occurs. -/
def addNetworkListener (plugins : Option Plugins) (s : ListenerState) : ListenerState :=
  match plugins with
  | none => s
  | some p =>
    match p.network with
    | none => s
    | some net =>
      match net.addListener with
      | .error _ => s
      | .ok _ =>
        { active := s.active ++ [s.next]
          networkListener := some s.next
          next := s.next + 1 }

/-- `removeNetworkListener()` (device-info.js 297-306): if a handle is cached,
its subscription is removed and the cache cleared. -/
def removeNetworkListener (s : ListenerState) : ListenerState :=
  match s.networkListener with
  | none => s
  | some h =>
    { active := s.active.erase h
      networkListener := none
      next := s.next }

/-- State of the auto-refresh timer (part_000 lines 10-15 and the runtime's
interval table): `active` lists the ids of intervals created by
`startAutoRefresh` that are still scheduled, `refreshInterval` is the handle
stored in `this.state.refreshInterval`, and `next` is the next fresh
interval id. -/
structure TimerState where
  active : List Nat
  refreshInterval : Option Nat
  next : Nat

/-- `startAutoRefresh()` (part_000 lines 415-423): an existing timer handle is
cleared first, then a fresh interval is created and its handle stored. -/
def startAutoRefresh (s : TimerState) : TimerState :=
  let cleared :=
    match s.refreshInterval with
    | some t => { s with active := s.active.erase t }
    | none => s
  { active := cleared.active ++ [s.next]
    refreshInterval := some s.next
    next := s.next + 1 }

/-- `stopAutoRefresh()` (part_000 lines 428-433): the stored interval, if any,
is cleared and the handle nulled. -/
def stopAutoRefresh (s : TimerState) : TimerState :=
  match s.refreshInterval with
  | none => s
  | some t =>
    { active := s.active.erase t
      refreshInterval := none
      next := s.next }

/-- A JavaScript value as produced by `JSON.parse`.  Numbers are modelled as
exact rationals (JavaScript doubles are not modelled: a literal beyond
double precision or range denotes its exact value here rather than the
nearest double or an infinity — no such literal ever arises in this
application).  `obj` keeps members in source order, as JavaScript objects
do; duplicate keys are kept in order (`JSON.parse` retains the last — the
application never stores duplicates). -/
inductive JsonValue where
  | null : JsonValue
  | bool : Bool → JsonValue
  | num : ℚ → JsonValue
  | str : String → JsonValue
  | arr : List JsonValue → JsonValue
  | obj : List (String × JsonValue) → JsonValue

/-- Decimal digit characters. -/
def isDigitChar (c : Char) : Bool := '0' ≤ c && c ≤ '9'

/-- Numeric value of a decimal digit character. -/
def digitVal (c : Char) : Nat := c.toNat - 48

/-- Longest digit prefix of a character list, as digit values, with the rest. -/
def takeDigits : List Char → List Nat × List Char
  | [] => ([], [])
  | c :: cs =>
    if isDigitChar c then
      let (ds, r) := takeDigits cs
      (digitVal c :: ds, r)
    else ([], c :: cs)

/-- Value of a big-endian digit list. -/
def digitsToNat (ds : List Nat) : Nat := ds.foldl (fun a d => a * 10 + d) 0

/-- Whether a character list starts with a decimal digit. -/
def headIsDigit : List Char → Bool
  | [] => false
  | c :: _ => isDigitChar c

/-- JSON insignificant whitespace (space, tab, line feed, carriage return —
the only characters `JSON.parse` skips between tokens). -/
def isJsonWs (c : Char) : Bool := c = ' ' || c = '\t' || c = '\n' || c = '\r'

/-- Drop leading JSON whitespace. -/
def skipWs : List Char → List Char
  | [] => []
  | c :: cs => if isJsonWs c then skipWs cs else c :: cs

/-- Whether a character list starts with a character that would extend a
number literal (a further digit, a fraction point or an exponent marker). -/
def headIsNumberSuffix : List Char → Bool
  | [] => false
  | c :: _ => isDigitChar c || c = '.' || c = 'e' || c = 'E'

/-- Exponent part of a number literal, after the `e`/`E` marker: an optional
sign and at least one digit. -/
def parseExpTail (cs : List Char) : Option (ℤ × List Char) :=
  let negE : Bool := decide (cs.head? = some '-')
  let cs1 := if cs.head? = some '+' ∨ cs.head? = some '-' then cs.tail else cs
  let (eds, cs2) := takeDigits cs1
  if eds = [] then none
  else some (if negE then -(digitsToNat eds : ℤ) else (digitsToNat eds : ℤ), cs2)

/-- Value denoted by a parsed number literal — sign, integer digits, fraction
digits and decimal exponent — as an exact rational. -/
def jsonNumValue (neg : Bool) (ids fds : List Nat) (e : ℤ) : ℚ :=
  let mant : ℚ := (digitsToNat ids : ℚ) + (digitsToNat fds : ℚ) / (10 : ℚ) ^ fds.length
  let mag : ℚ := mant * (10 : ℚ) ^ e
  if neg then -mag else mag

/-- Parse a number literal by the JSON grammar `-? int frac? exp?` with
`int = 0 | [1-9][0-9]*` — a redundant leading zero is rejected, exactly as
`JSON.parse` rejects it. -/
def parseNumberChars (cs : List Char) : Option (ℚ × List Char) :=
  let neg : Bool := decide (cs.head? = some '-')
  let cs1 := if cs.head? = some '-' then cs.tail else cs
  let (ids, cs2) := takeDigits cs1
  if ids = [] then none
  else if ids.head? = some 0 ∧ 1 < ids.length then none
  else
    match
      (if cs2.head? = some '.' then
        (let fr := takeDigits cs2.tail
         if fr.1 = [] then none else some fr)
       else some ([], cs2)) with
    | none => none
    | some (fds, cs4) =>
      if cs4.head? = some 'e' ∨ cs4.head? = some 'E' then
        match parseExpTail cs4.tail with
        | none => none
        | some ec => some (jsonNumValue neg ids fds ec.1, ec.2)
      else some (jsonNumValue neg ids fds 0, cs4)

/-- Value of a hexadecimal digit character. -/
def hexVal (c : Char) : Option Nat :=
  if '0' ≤ c ∧ c ≤ '9' then some (c.toNat - 48)
  else if 'a' ≤ c ∧ c ≤ 'f' then some (c.toNat - 87)
  else if 'A' ≤ c ∧ c ≤ 'F' then some (c.toNat - 55)
  else none

/-- Value of a four-hex-digit escape. -/
def hex4 (a b c d : Char) : Option Nat :=
  (hexVal a).bind fun va =>
    (hexVal b).bind fun vb =>
      (hexVal c).bind fun vc =>
        (hexVal d).map fun vd => ((va * 16 + vb) * 16 + vc) * 16 + vd

/-- Single-character JSON escapes (the four-hex-digit escape is handled
separately). -/
def unescape (c : Char) : Option Char :=
  if c = '"' then some '"'
  else if c = '\\' then some '\\'
  else if c = '/' then some '/'
  else if c = 'b' then some (Char.ofNat 8)
  else if c = 'f' then some (Char.ofNat 12)
  else if c = 'n' then some '\n'
  else if c = 'r' then some '\r'
  else if c = 't' then some '\t'
  else none

/-- Parse the body of a JSON string (after the opening quote), up to and
including the closing quote.  A raw control character (below U+0020) is
rejected, exactly as `JSON.parse` rejects it.  A four-hex-digit escape
yields the escaped character, and a high-low surrogate escape pair the
combined character.  (A lone surrogate escape, which a JavaScript UTF-16
string can hold, has no Unicode scalar value and is not representable
here; the application never stores one.) -/
def parseStringBody : Nat → List Char → Option (List Char × List Char)
  | 0, _ => none
  | fuel + 1, cs0 =>
    match cs0 with
    | [] => none
    | c :: cs =>
      if c = '"' then some ([], cs)
      else if c = '\\' then
        match cs with
        | [] => none
        | e :: cs2 =>
          if e = 'u' then
            match cs2 with
            | a :: b :: c2 :: d :: cs3 =>
              match hex4 a b c2 d with
              | none => none
              | some v =>
                if v < 0xD800 ∨ 0xDFFF < v then
                  (parseStringBody fuel cs3).map fun sr => (Char.ofNat v :: sr.1, sr.2)
                else if v ≤ 0xDBFF then
                  match cs3 with
                  | e1 :: e2 :: a2 :: b2 :: c3 :: d2 :: cs4 =>
                    if e1 = '\\' ∧ e2 = 'u' then
                      match hex4 a2 b2 c3 d2 with
                      | none => none
                      | some w =>
                        if 0xDC00 ≤ w ∧ w ≤ 0xDFFF then
                          (parseStringBody fuel cs4).map fun sr =>
                            (Char.ofNat (0x10000 + (v - 0xD800) * 0x400 + (w - 0xDC00)) :: sr.1, sr.2)
                        else none
                    else none
                  | _ => none
                else none
            | _ => none
          else
            (unescape e).bind fun u =>
              (parseStringBody fuel cs2).map fun sr => (u :: sr.1, sr.2)
      else if c.toNat < 32 then none
      else (parseStringBody fuel cs).map fun sr => (c :: sr.1, sr.2)

/-- Parse the body of a JSON string, with fuel drawn from the input itself:
every step consumes at least one character while spending one unit, so
`length + 1` never runs out. -/
def parseString (r : List Char) : Option (List Char × List Char) :=
  parseStringBody (r.length + 1) r

/-- Match an expected literal character sequence. -/
def stripChars : List Char → List Char → Option (List Char)
  | [], cs => some cs
  | _ :: _, [] => none
  | p :: ps, c :: cs => if c = p then stripChars ps cs else none

mutual

/-- Parse one JSON value (fuel-indexed; the fuel bounds nesting depth and
member count and is instantiated with the input length, which always
suffices because every recursive call follows at least one consumed
character). -/
def parseValue : Nat → List Char → Option (JsonValue × List Char)
  | 0, _ => none
  | _ + 1, [] => none
  | fuel + 1, c :: r =>
    if c = 'n' then (stripChars ['u', 'l', 'l'] r).map fun rest => (.null, rest)
    else if c = 't' then (stripChars ['r', 'u', 'e'] r).map fun rest => (.bool true, rest)
    else if c = 'f' then (stripChars ['a', 'l', 's', 'e'] r).map fun rest => (.bool false, rest)
    else if c = '"' then (parseString r).map fun sr => (.str (String.mk sr.1), sr.2)
    else if c = '[' then
      if (skipWs r).head? = some ']' then some (.arr [], (skipWs r).tail)
      else (parseElems fuel (skipWs r)).map fun er => (.arr er.1, er.2)
    else if c = '\x7b' then
      if (skipWs r).head? = some '\x7d' then some (.obj [], (skipWs r).tail)
      else (parseMembers fuel (skipWs r)).map fun mr => (.obj mr.1, mr.2)
    else if c = '-' || isDigitChar c then
      (parseNumberChars (c :: r)).map fun nr => (.num nr.1, nr.2)
    else none

/-- Parse the members of a JSON object (after the opening brace and any
whitespace), up to and including the closing brace; whitespace is skipped
around the colon and around each separator. -/
def parseMembers : Nat → List Char → Option (List (String × JsonValue) × List Char)
  | 0, _ => none
  | fuel + 1, cs =>
    match cs with
    | '"' :: r =>
      match parseString r with
      | none => none
      | some (k, r2) =>
        match skipWs r2 with
        | ':' :: r3 =>
          match parseValue fuel (skipWs r3) with
          | none => none
          | some (v, r4) =>
            match skipWs r4 with
            | ',' :: r5 =>
              (parseMembers fuel (skipWs r5)).map fun mr => ((String.mk k, v) :: mr.1, mr.2)
            | '\x7d' :: r5 => some ([(String.mk k, v)], r5)
            | _ => none
        | _ => none
    | _ => none

/-- Parse the elements of a JSON array (after the opening bracket and any
whitespace), up to and including the closing bracket; whitespace is skipped
around each separator. -/
def parseElems : Nat → List Char → Option (List JsonValue × List Char)
  | 0, _ => none
  | fuel + 1, cs =>
    match parseValue fuel cs with
    | none => none
    | some (v, r) =>
      match skipWs r with
      | ',' :: r2 => (parseElems fuel (skipWs r2)).map fun er => (v :: er.1, er.2)
      | ']' :: r2 => some ([v], r2)
      | _ => none

end

/-- `JSON.parse(s)` as this application can observe it: `some v` when the
whole input is one JSON value surrounded by optional whitespace, `none`
when parsing throws. -/
def jsonParse (s : String) : Option JsonValue :=
  match parseValue (s.length + 1) (skipWs s.data) with
  | some (v, r) => if skipWs r = [] then some v else none
  | _ => none

/-- The Preferences object of the data model: 4 booleans and the refresh
interval in milliseconds. -/
structure Preferences where
  autoRefresh : Bool
  refreshInterval : ℤ
  showBattery : Bool
  showNetwork : Bool
  showUptime : Bool

/-- A Preferences object as the JavaScript value it is at runtime: an object
with its five fields in insertion order (part_000 lines 76-84). -/
def encodePreferences (p : Preferences) : JsonValue :=
  .obj [("autoRefresh", .bool p.autoRefresh),
        ("refreshInterval", .num (p.refreshInterval : ℚ)),
        ("showBattery", .bool p.showBattery),
        ("showNetwork", .bool p.showNetwork),
        ("showUptime", .bool p.showUptime)]

/-- Decimal digits of a natural number, most significant first (fuel-indexed
so that it is structurally recursive; any fuel above the digit count, in
particular `n + 1`, suffices). -/
def natToCharsAux : Nat → Nat → List Char
  | 0, _ => []
  | fuel + 1, n =>
    if n < 10 then [Nat.digitChar n]
    else natToCharsAux fuel (n / 10) ++ [Nat.digitChar (n % 10)]

/-- Decimal digits of a natural number, most significant first. -/
def natToChars (n : Nat) : List Char := natToCharsAux (n + 1) n

/-- Decimal representation of an integer, as `JSON.stringify` prints an
integral JavaScript number. -/
def intToChars (i : ℤ) : List Char :=
  if i < 0 then '-' :: natToChars i.natAbs else natToChars i.natAbs

/-- `JSON.stringify` of a boolean. -/
def boolChars (b : Bool) : List Char := if b then "true".data else "false".data

/-- One `"key":value` object member as `JSON.stringify` prints it. -/
def memberChars (key valueChars : List Char) : List Char :=
  '"' :: (key ++ ('"' :: (':' :: valueChars)))

/-- Characters of the five preference keys. -/
def keyAutoRefresh : List Char := "autoRefresh".data

/-- Characters of the key "refreshInterval". -/
def keyRefreshInterval : List Char := "refreshInterval".data

/-- Characters of the key "showBattery". -/
def keyShowBattery : List Char := "showBattery".data

/-- Characters of the key "showNetwork". -/
def keyShowNetwork : List Char := "showNetwork".data

/-- Characters of the key "showUptime". -/
def keyShowUptime : List Char := "showUptime".data

/-- `JSON.stringify(preferences)` (part_000 line 90) character by character:
an object with the five members in insertion order, no whitespace. -/
def stringifyPrefsChars (p : Preferences) : List Char :=
  '\x7b' ::
    (memberChars keyAutoRefresh (boolChars p.autoRefresh) ++ ',' ::
      (memberChars keyRefreshInterval (intToChars p.refreshInterval) ++ ',' ::
        (memberChars keyShowBattery (boolChars p.showBattery) ++ ',' ::
          (memberChars keyShowNetwork (boolChars p.showNetwork) ++ ',' ::
            (memberChars keyShowUptime (boolChars p.showUptime) ++ ['\x7d'])))))

/-- `JSON.stringify(preferences)` as a string. -/
def stringifyPreferences (p : Preferences) : String := String.mk (stringifyPrefsChars p)

/-- `getDefaultPreferences()` (part_000 lines 76-84), as the JavaScript object
it returns. -/
def getDefaultPreferences : JsonValue := encodePreferences ⟨false, 30000, true, true, true⟩

/-- `savePreferences()` (part_000 lines 89-91): the string written under the
`appPreferences` key, for a well-formed Preferences object. -/
def savePreferences (prefs : Preferences) : Option String := some (stringifyPreferences prefs)

/-- `loadPreferences()` (part_000 lines 59-71).  `stored` is
`localStorage.getItem('appPreferences')` (`none` when the key is absent).
A missing or empty (falsy) stored string and a throwing `JSON.parse` install
the defaults; a successful parse is installed verbatim.  Total: no exception
escapes. -/
def loadPreferences (stored : Option String) : JsonValue :=
  match stored with
  | none => getDefaultPreferences
  | some saved =>
    if saved = "" then getDefaultPreferences
    else
      match jsonParse saved with
      | some v => v
      | none => getDefaultPreferences

/-- UI phase of the application (part_000): the loading indicator, the ready
view rendered from a snapshot, or the error view `showError` installs in
place of the loading indicator, with its message and its retry control. -/
inductive UIState where
  | loading : UIState
  | ready : InfoRecord → UIState
  | error : String → Bool → UIState

/-- `showError(message)` (part_000 lines 464-474): the loading element's
content is replaced wholesale by the error message and a visible retry
button. -/
def showError (message : String) : UIState := .error message true

/-- Whether a UI state is the error view. -/
def isErrorState : UIState → Bool
  | .error _ _ => true
  | _ => false

/-- `App.init()` (part_000 lines 20-54), as a function of the plugin
behaviour, the stored preferences string, and the two clock readings that
determine the uptime text.  The provider-facing steps are total in the
model because the source step catches its own errors: `loadPreferences`
(59-71) catches parse errors, `DeviceInfo.init` (31-42, effect only)
catches `requestPermissions` failures, `loadDeviceInfo` (168-176) catches
via `getAllInfo` (47-66), and `addNetworkListener` (274-292) catches
subscription failures.  The one step that can throw is `renderUI` (96-163):
its template reads `this.state.preferences.autoRefresh` (line 151), and
property access on `null` throws a TypeError, so a stored string parsing to
`null` sends `App.init` into its `catch` (50-53), which runs `showError`
before the snapshot fetch or listener setup ever happen.  (Property access
on any other parsed value — a number, string, boolean, array or object —
yields `undefined` or a value and does not throw, and `JSON.parse` never
yields `undefined`, so `null` preferences are the only exception source in
the modelled input space.)  Otherwise `updateUI` (181-210) leaves the
ready view.  The returned triple is the final UI state, the installed
preferences value, and the network-listener state after
`setupNetworkListener` (311-320). -/
def appInit (plugins : Option Plugins) (stored : Option String) (startTime now : Nat) :
    UIState × JsonValue × ListenerState :=
  let prefs := loadPreferences stored
  match prefs with
  | JsonValue.null =>
    (showError "初始化失败，请刷新页面重试", prefs, ⟨[], none, 0⟩)
  | _ =>
    let info := getAllInfo plugins startTime now
    let listeners := addNetworkListener plugins ⟨[], none, 0⟩
    (UIState.ready info, prefs, listeners)

/-- A Device plugin whose every call throws. -/
def throwingDevicePlugin : DevicePlugin := ⟨.error (), .error ()⟩

/-- A Network plugin whose every call throws. -/
def throwingNetworkPlugin : NetworkPlugin := ⟨.error (), .error ()⟩

/-- A plugin bridge on which every capability provider call throws. -/
def allFailPlugins : Plugins :=
  ⟨some throwingDevicePlugin, some throwingNetworkPlugin, some ⟨.error ()⟩⟩

/-- A plugin bridge whose Network plugin accepts listener registrations. -/
def workingNetworkPlugins : Plugins := ⟨none, some ⟨.error (), .ok ()⟩, none⟩

/-!
Theorems.  Helper lemmas come first, then one theorem per claim (with its
witness or counterexample where required).
-/

/-- Sanity anchor: the serialized default preferences are exactly the JSON
text `JSON.stringify` produces for them. -/
theorem stringifyPreferences_default :
    stringifyPreferences ⟨false, 30000, true, true, true⟩ =
      "\x7b\"autoRefresh\":false,\"refreshInterval\":30000,\"showBattery\":true,\"showNetwork\":true,\"showUptime\":true\x7d" := by
  rfl

/-- C1: for every InfoProvider query, if the plugin bridge is absent
(`getPlugins` returns null) or the underlying provider call throws, the
query returns its documented fixed fallback value and never throws (the
embedded functions are total): `getDeviceInfo` returns the record with
platform "ios", manufacturer "Apple", battery level 1 and charging false,
and `getNetworkStatus` returns the record with connected false and
connectionType "none". -/
theorem infoProvider_fallback_queries :
    (getDeviceInfo none =
      { model := "iOS 设备", platform := "ios", operatingSystem := "iOS",
        osVersion := "未知", manufacturer := "Apple", isVirtual := false,
        battery := { level := 1, charging := false } }) ∧
    (∀ (p : Plugins) (d : DevicePlugin), p.device = some d →
      (d.getInfo = .error () ∨ d.getBatteryInfo = .error ()) →
      getDeviceInfo (some p) =
        { model := "iOS 设备", platform := "ios", operatingSystem := "iOS",
          osVersion := "未知", manufacturer := "Apple", isVirtual := false,
          battery := { level := 1, charging := false } }) ∧
    (getNetworkStatus none =
      { connected := false, connectionType := "none", typeText := "无法获取" }) ∧
    (∀ (p : Plugins) (n : NetworkPlugin), p.network = some n →
      n.getStatus = .error () →
      getNetworkStatus (some p) =
        { connected := false, connectionType := "none", typeText := "无法获取" }) := by
  refine ⟨rfl, ?_, rfl, ?_⟩
  · intro p d hd hfail
    rcases hfail with hf | hf
    · simp [getDeviceInfo, hd, hf, getFallbackDeviceInfo]
    · cases hg : d.getInfo with
      | error e => simp [getDeviceInfo, hd, hg, getFallbackDeviceInfo]
      | ok info => simp [getDeviceInfo, hd, hg, hf, getFallbackDeviceInfo]
  · intro p n hn hfail
    simp [getNetworkStatus, hn, hfail, getFallbackNetworkStatus]

/-- Witness for C1: the fallbacks at a concrete bridge on which every
provider call throws. -/
theorem infoProvider_fallback_queries_witness :
    getDeviceInfo (some allFailPlugins) =
      { model := "iOS 设备", platform := "ios", operatingSystem := "iOS",
        osVersion := "未知", manufacturer := "Apple", isVirtual := false,
        battery := { level := 1, charging := false } } ∧
    getNetworkStatus (some allFailPlugins) =
      { connected := false, connectionType := "none", typeText := "无法获取" } :=
  ⟨infoProvider_fallback_queries.2.1 allFailPlugins throwingDevicePlugin rfl (Or.inl rfl),
   infoProvider_fallback_queries.2.2.2 allFailPlugins throwingNetworkPlugin rfl rfl⟩

/-- Helper: `getUptime` written over the collapsed divisions of the elapsed
milliseconds (1000·60 = 60000, ·60 = 3600000, ·24 = 86400000). -/
theorem getUptime_eq (startTime now : Nat) :
    getUptime startTime now =
      (let e := now - startTime
       if 0 < e / 86400000 then
         toString (e / 86400000) ++ "天 " ++ toString (e / 3600000 % 24) ++ "小时"
       else if 0 < e / 3600000 then
         toString (e / 3600000) ++ "小时 " ++ toString (e / 60000 % 60) ++ "分钟"
       else if 0 < e / 60000 then
         toString (e / 60000) ++ "分钟 " ++ toString (e / 1000 % 60) ++ "秒"
       else toString (e / 1000) ++ "秒") := by
  simp only [getUptime, Nat.div_div_eq_div_mul]

/-- C2: for every StartTime and current time not before it, `getUptime`
selects its unit pair by the stated thresholds on the elapsed milliseconds
(days+hours from one day, hours+minutes from one hour, minutes+seconds from
one minute, else seconds), and the three stated examples hold (elapsed 90 s,
3700 s and 90000 s). -/
theorem getUptime_unit_thresholds (startTime now : Nat) (h : startTime ≤ now) :
    (86400000 ≤ now - startTime →
      getUptime startTime now =
        toString ((now - startTime) / 86400000) ++ "天 " ++
          toString ((now - startTime) / 3600000 % 24) ++ "小时") ∧
    (3600000 ≤ now - startTime → now - startTime < 86400000 →
      getUptime startTime now =
        toString ((now - startTime) / 3600000) ++ "小时 " ++
          toString ((now - startTime) / 60000 % 60) ++ "分钟") ∧
    (60000 ≤ now - startTime → now - startTime < 3600000 →
      getUptime startTime now =
        toString ((now - startTime) / 60000) ++ "分钟 " ++
          toString ((now - startTime) / 1000 % 60) ++ "秒") ∧
    (now - startTime < 60000 →
      getUptime startTime now = toString ((now - startTime) / 1000) ++ "秒") ∧
    getUptime 0 90000 = "1分钟 30秒" ∧
    getUptime 0 3700000 = "1小时 1分钟" ∧
    getUptime 0 90000000 = "1天 1小时" := by
  rw [getUptime_eq]
  refine ⟨?_, ?_, ?_, ?_, by rfl, by rfl, by rfl⟩
  · intro hd
    rw [if_pos (Nat.div_pos hd (by norm_num))]
  · intro hh hd
    rw [if_neg (by rw [Nat.div_eq_of_lt hd]; omega),
        if_pos (Nat.div_pos hh (by norm_num))]
  · intro hm hh
    rw [if_neg (by rw [Nat.div_eq_of_lt (by omega : now - startTime < 86400000)]; omega),
        if_neg (by rw [Nat.div_eq_of_lt hh]; omega),
        if_pos (Nat.div_pos hm (by norm_num))]
  · intro hs
    rw [if_neg (by rw [Nat.div_eq_of_lt (by omega : now - startTime < 86400000)]; omega),
        if_neg (by rw [Nat.div_eq_of_lt (by omega : now - startTime < 3600000)]; omega),
        if_neg (by rw [Nat.div_eq_of_lt hs]; omega)]

/-- Witness for C2: the thresholds applied at StartTime 0 and current time
90000 ms (elapsed 90 s). -/
theorem getUptime_unit_thresholds_witness : getUptime 0 90000 = "1分钟 30秒" :=
  (getUptime_unit_thresholds 0 90000 (by norm_num)).2.2.2.2.1

/-- Counterexample for C3: at battery level exactly 0.20 the rounded
percentage is 20, and `level > 20` is strictly false, so `formatBatteryInfo`
assigns levelClass "low", not the claimed "medium". -/
theorem formatBatteryInfo_boundary_cx :
    (formatBatteryInfo (some ⟨some (1 / 5), some false⟩)).levelClass = "low" ∧
    (formatBatteryInfo (some ⟨some (1 / 5), some false⟩)).levelClass ≠ "medium" := by
  constructor
  · norm_num [formatBatteryInfo, jsOrQ, jsRound]
  · norm_num [formatBatteryInfo, jsOrQ, jsRound]
    decide

/-- C3 (amended): `formatBatteryInfo` assigns levelClass by strict thresholds
on the rounded percentage — "high" above 50, "medium" above 20 but not
above 50, "low" otherwise; level 0.55 gives "high", 0.35 "medium",
0.10 "low", and the boundary values give 0.50 → "medium" but 0.20 → "low"
(20 is not strictly above 20). -/
theorem formatBatteryInfo_levelClass :
    (∀ battery : Option BatterySnap,
      (formatBatteryInfo battery).levelClass =
        if 50 < (formatBatteryInfo battery).level then "high"
        else if 20 < (formatBatteryInfo battery).level then "medium"
        else "low") ∧
    (formatBatteryInfo (some ⟨some (11 / 20), some false⟩)).levelClass = "high" ∧
    (formatBatteryInfo (some ⟨some (7 / 20), some false⟩)).levelClass = "medium" ∧
    (formatBatteryInfo (some ⟨some (1 / 10), some false⟩)).levelClass = "low" ∧
    (formatBatteryInfo (some ⟨some (1 / 2), some false⟩)).levelClass = "medium" ∧
    (formatBatteryInfo (some ⟨some (1 / 5), some false⟩)).levelClass = "low" := by
  refine ⟨fun _ => rfl, ?_, ?_, ?_, ?_, ?_⟩ <;> norm_num [formatBatteryInfo, jsOrQ, jsRound]

/-- C9: a battery level of exactly 0, or a missing battery field, is falsy,
so `formatBatteryInfo` replaces it by the full-battery default 1 and reports
level 100 with levelClass "high"; `getDeviceInfo` likewise turns a reported
`batteryLevel` of 0 into level 1 via `batteryId.batteryLevel || 1`. -/
theorem battery_falsy_defaults :
    (formatBatteryInfo none).level = 100 ∧
    (formatBatteryInfo none).levelClass = "high" ∧
    (∀ charging : Option Bool,
      (formatBatteryInfo (some ⟨some 0, charging⟩)).level = 100 ∧
      (formatBatteryInfo (some ⟨some 0, charging⟩)).levelClass = "high") ∧
    (∀ (info : RawDeviceInfo) (chg : Option Bool)
        (net : Option NetworkPlugin) (nt : Option NotificationsPlugin),
      (getDeviceInfo (some ⟨some ⟨.ok info, .ok ⟨some 0, chg⟩⟩, net, nt⟩)).battery.level = 1) := by
  refine ⟨?_, ?_, fun charging => ⟨?_, ?_⟩, fun info chg net nt => ?_⟩ <;>
    norm_num [formatBatteryInfo, getDeviceInfo, jsOrQ, jsRound]

/-- Counterexample for C4: from a fresh state, two successful
`addNetworkListener` calls leave BOTH platform subscriptions active — the
prior subscription (handle 0) is not torn down by the second call, so more
than one active network-change subscription exists. -/
theorem addNetworkListener_leak_cx :
    (addNetworkListener (some workingNetworkPlugins)
        (addNetworkListener (some workingNetworkPlugins) ⟨[], none, 0⟩)).active = [0, 1] ∧
    0 ∈ (addNetworkListener (some workingNetworkPlugins)
        (addNetworkListener (some workingNetworkPlugins) ⟨[], none, 0⟩)).active := by
  exact ⟨rfl, by decide⟩

/-- C4 (amended): calling `addNetworkListener` while a prior subscription is
held does NOT tear it down: the new subscription is appended to the active
ones and the cached handle is overwritten, so the prior subscription leaks
and only the most recent one remains removable. -/
theorem addNetworkListener_overwrites (p : Plugins) (net : NetworkPlugin)
    (hnet : p.network = some net) (hok : net.addListener = .ok ())
    (s : ListenerState) :
    (addNetworkListener (some p) s).active = s.active ++ [s.next] ∧
    (addNetworkListener (some p) s).networkListener = some s.next := by
  simp [addNetworkListener, hnet, hok]

/-- Witness for C4's amended theorem: a second registration on top of a held
subscription appends rather than replaces. -/
theorem addNetworkListener_overwrites_witness :
    (addNetworkListener (some workingNetworkPlugins) ⟨[0], some 0, 1⟩).active = [0] ++ [1] ∧
    (addNetworkListener (some workingNetworkPlugins) ⟨[0], some 0, 1⟩).networkListener = some 1 :=
  addNetworkListener_overwrites workingNetworkPlugins ⟨.error (), .ok ()⟩ rfl rfl ⟨[0], some 0, 1⟩

/-- C7: calling `startAutoRefresh` twice in succession leaves exactly one
active refresh timer — the second call clears the one the first call
created (`s.next`) before creating the new one (`s.next + 1`).  The
hypothesis is the reachable-state invariant: the active refresh timers are
exactly the one tracked in `state.refreshInterval`. -/
theorem startAutoRefresh_twice (s : TimerState)
    (hinv : s.active = s.refreshInterval.toList) :
    (startAutoRefresh (startAutoRefresh s)).active = [s.next + 1] ∧
    s.next ∉ (startAutoRefresh (startAutoRefresh s)).active := by
  obtain ⟨a, r, n⟩ := s
  cases r with
  | none =>
    simp [Option.toList] at hinv
    subst hinv
    simp [startAutoRefresh]
  | some t =>
    simp [Option.toList] at hinv
    subst hinv
    simp [startAutoRefresh]

/-- Witness for C7: the two calls from the fresh timer state. -/
theorem startAutoRefresh_twice_witness :
    (startAutoRefresh (startAutoRefresh ⟨[], none, 0⟩)).active = [0 + 1] ∧
    0 ∉ (startAutoRefresh (startAutoRefresh ⟨[], none, 0⟩)).active :=
  startAutoRefresh_twice ⟨[], none, 0⟩ rfl

/-- Counterexample for C5: with every capability provider call stubbed to
throw, `App.init` does NOT transition to the error state — every failure is
absorbed inside the InfoProvider, so the app reaches `ready` displaying the
documented fallback values. -/
theorem appInit_allfail_ready_cx :
    (appInit (some allFailPlugins) none 0 0).1 =
      UIState.ready
        { model := "iOS 设备", platform := "ios", operatingSystem := "iOS",
          osVersion := "未知", manufacturer := "Apple", isVirtual := false,
          battery := { level := 1, charging := false },
          network := { connected := false, connectionType := "none", typeText := "无法获取" },
          appVersion := "1.0.0", uptime := "0秒" } ∧
    isErrorState (appInit (some allFailPlugins) none 0 0).1 = false :=
  ⟨rfl, rfl⟩

/-- C5 (amended): capability-provider failures never produce the error
state — `App.init`'s outcome does not depend on the provider behaviour at
all.  For every provider behaviour (in particular all calls throwing):
whenever the independently-stored preferences value does not parse to
`null`, init ends in the `ready` state showing the snapshot `getAllInfo`
assembles from the per-call fallbacks; the error view — `showError`'s
message with a visible retry control replacing the loading indicator — is
produced only by the init sequence's own exception, the property access on
`null` preferences in `renderUI`, which provider failures never cause. -/
theorem appInit_provider_independent (plugins : Option Plugins)
    (stored : Option String) (startTime now : Nat) :
    (¬loadPreferences stored = JsonValue.null →
      (appInit plugins stored startTime now).1 =
        UIState.ready (getAllInfo plugins startTime now) ∧
      isErrorState (appInit plugins stored startTime now).1 = false) ∧
    (loadPreferences stored = JsonValue.null →
      (appInit plugins stored startTime now).1 =
        showError "初始化失败，请刷新页面重试") ∧
    (∀ message : String, showError message = UIState.error message true) := by
  refine ⟨fun hne => ?_, fun hnull => ?_, fun _ => rfl⟩
  · cases h : loadPreferences stored with
    | null => exact absurd h hne
    | bool b => simp [appInit, h, isErrorState]
    | num q => simp [appInit, h, isErrorState]
    | str s => simp [appInit, h, isErrorState]
    | arr xs => simp [appInit, h, isErrorState]
    | obj ms => simp [appInit, h, isErrorState]
  · simp [appInit, hnull]

/-- Witness for C5's amended theorem: both branches at concrete inputs —
all-throwing providers with absent stored preferences reach ready, and
all-throwing providers with stored "null" reach the error view. -/
theorem appInit_provider_independent_witness :
    ((appInit (some allFailPlugins) none 0 0).1 =
        UIState.ready (getAllInfo (some allFailPlugins) 0 0) ∧
      isErrorState (appInit (some allFailPlugins) none 0 0).1 = false) ∧
    (appInit (some allFailPlugins) (some "null") 0 0).1 =
      showError "初始化失败，请刷新页面重试" :=
  ⟨(appInit_provider_independent (some allFailPlugins) none 0 0).1
     (by simp [loadPreferences, getDefaultPreferences, encodePreferences]),
   (appInit_provider_independent (some allFailPlugins) (some "null") 0 0).2.1 rfl⟩

/-- Digit characters decode to their value. -/
theorem digitVal_digitChar : ∀ d : Nat, d < 10 → digitVal (Nat.digitChar d) = d := by
  decide

/-- Digit characters are digit characters. -/
theorem isDigitChar_digitChar : ∀ d : Nat, d < 10 → isDigitChar (Nat.digitChar d) = true := by
  decide

/-- Every character printed for a natural number is a digit. -/
theorem natToCharsAux_digits :
    ∀ (f n : Nat), n < f → ∀ c ∈ natToCharsAux f n, isDigitChar c = true := by
  intro f
  induction f with
  | zero => intro n h; omega
  | succ f ih =>
    intro n h c hc
    by_cases h10 : n < 10
    · simp [natToCharsAux, h10] at hc
      subst hc
      exact isDigitChar_digitChar n h10
    · simp [natToCharsAux, h10] at hc
      rcases hc with hc | hc
      · have hdiv : n / 10 < f := by
          have := Nat.div_lt_self (by omega : 0 < n) (by omega : 1 < 10)
          omega
        exact ih (n / 10) hdiv c hc
      · subst hc
        exact isDigitChar_digitChar (n % 10) (Nat.mod_lt _ (by omega))

/-- The printed digits of a natural number are never empty. -/
theorem natToCharsAux_ne_nil : ∀ (f n : Nat), n < f → natToCharsAux f n ≠ [] := by
  intro f
  induction f with
  | zero => intro n h; omega
  | succ f _ =>
    intro n _
    by_cases h10 : n < 10
    · simp [natToCharsAux, h10]
    · simp [natToCharsAux, h10]

/-- Appending one digit multiplies the value by ten and adds it. -/
theorem digitsToNat_append (l : List Nat) (d : Nat) :
    digitsToNat (l ++ [d]) = digitsToNat l * 10 + d := by
  simp [digitsToNat, List.foldl_append]

/-- Printing then decoding a natural number is the identity. -/
theorem digitsToNat_natToCharsAux :
    ∀ (f n : Nat), n < f → digitsToNat ((natToCharsAux f n).map digitVal) = n := by
  intro f
  induction f with
  | zero => intro n h; omega
  | succ f ih =>
    intro n h
    by_cases h10 : n < 10
    · simp [natToCharsAux, h10, digitsToNat, digitVal_digitChar n h10]
    · have hdiv : n / 10 < f := by
        have := Nat.div_lt_self (by omega : 0 < n) (by omega : 1 < 10)
        omega
      rw [natToCharsAux]
      simp only [h10, if_false, List.map_append, List.map_cons, List.map_nil]
      rw [digitVal_digitChar (n % 10) (Nat.mod_lt _ (by omega)), digitsToNat_append,
          ih (n / 10) hdiv]
      omega

/-- `takeDigits` consumes exactly a leading all-digit block when what follows
does not start with a digit. -/
theorem takeDigits_append (ds rest : List Char)
    (hds : ∀ c ∈ ds, isDigitChar c = true) (hrest : headIsDigit rest = false) :
    takeDigits (ds ++ rest) = (ds.map digitVal, rest) := by
  induction ds with
  | nil =>
    cases rest with
    | nil => simp [takeDigits]
    | cons c cs =>
      simp [headIsDigit] at hrest
      simp [takeDigits, hrest]
  | cons c cs ih =>
    have hc := hds c (by simp)
    simp [takeDigits, hc, ih (fun x hx => hds x (by simp [hx]))]

/-- A digit character is not the minus sign. -/
theorem isDigitChar_ne_minus (c : Char) (h : isDigitChar c = true) : ¬c = '-' := by
  rintro rfl
  exact absurd h (by decide)

/-- A continuation that cannot extend a number literal starts with neither a
digit nor a fraction point nor an exponent marker. -/
theorem headIsNumberSuffix_props (r : List Char) (h : headIsNumberSuffix r = false) :
    headIsDigit r = false ∧ ¬r.head? = some '.' ∧
      ¬r.head? = some 'e' ∧ ¬r.head? = some 'E' := by
  cases r with
  | nil => simp [headIsDigit]
  | cons c cs =>
    simp only [headIsNumberSuffix, Bool.or_eq_false_iff, decide_eq_false_iff_not] at h
    obtain ⟨⟨⟨h1, h2⟩, h3⟩, h4⟩ := h
    simp [headIsDigit, h1, h2, h3, h4]

/-- The printed digits of a positive natural number do not start with 0. -/
theorem natToCharsAux_head_ne_zero :
    ∀ (f n : Nat), n < f → 0 < n →
      ¬((natToCharsAux f n).map digitVal).head? = some 0 := by
  intro f
  induction f with
  | zero => intro n h; omega
  | succ f ih =>
    intro n hlt hpos
    by_cases h10 : n < 10
    · simp [natToCharsAux, h10, digitVal_digitChar n h10]
      omega
    · have hdiv : n / 10 < f := by
        have := Nat.div_lt_self (by omega : 0 < n) (by omega : 1 < 10)
        omega
      have hdivpos : 0 < n / 10 := Nat.div_pos (by omega) (by omega)
      have hne := natToCharsAux_ne_nil f (n / 10) hdiv
      have hih := ih (n / 10) hdiv hdivpos
      cases hcc : natToCharsAux f (n / 10) with
      | nil => exact absurd hcc hne
      | cons d ds =>
        rw [hcc] at hih
        simp [natToCharsAux, h10, hcc]
        simp [List.head?] at hih
        exact hih

/-- A natural number prints either as the single digit 0 or with a nonzero
leading digit — never with a redundant leading zero. -/
theorem natToChars_no_leading_zero (n : Nat) :
    ¬(((natToChars n).map digitVal).head? = some 0 ∧
      1 < ((natToChars n).map digitVal).length) := by
  rintro ⟨h0, hlen⟩
  rcases Nat.eq_zero_or_pos n with hn | hn
  · subst hn
    simp [natToChars, natToCharsAux] at hlen
  · exact natToCharsAux_head_ne_zero (n + 1) n (by omega) hn h0

/-- `parseNumberChars` reads back exactly the printed digits of a natural
number when the continuation cannot extend the literal. -/
theorem parseNumberChars_natToChars (n : Nat) (rest : List Char)
    (hrest : headIsNumberSuffix rest = false) :
    parseNumberChars (natToChars n ++ rest) = some ((n : ℚ), rest) := by
  obtain ⟨hdigR, hdot, hexE1, hexE2⟩ := headIsNumberSuffix_props rest hrest
  have hlt : n < n + 1 := by omega
  have hdig := natToCharsAux_digits (n + 1) n hlt
  have htake : takeDigits (natToCharsAux (n + 1) n ++ rest) =
      ((natToCharsAux (n + 1) n).map digitVal, rest) :=
    takeDigits_append _ _ hdig hdigR
  have hdg := digitsToNat_natToCharsAux (n + 1) n hlt
  have hnlz := natToChars_no_leading_zero n
  rw [natToChars] at hnlz
  cases hch : natToCharsAux (n + 1) n with
  | nil => exact absurd hch (natToCharsAux_ne_nil (n + 1) n hlt)
  | cons c cs =>
    have hc : isDigitChar c = true := hdig c (by rw [hch]; simp)
    have hcm : ¬c = '-' := isDigitChar_ne_minus c hc
    rw [hch] at htake hdg hnlz
    rw [List.map_cons] at htake hdg hnlz
    simp only [natToChars, hch, List.cons_append]
    rw [parseNumberChars]
    simp only [List.head?_cons, Option.some.injEq, hcm, decide_False, Bool.false_eq_true,
      if_false]
    rw [show c :: (cs ++ rest) = (c :: cs) ++ rest from rfl, htake]
    simp only [List.map_cons] at htake ⊢
    rw [if_neg (by simp), if_neg hnlz, if_neg hdot]
    simp [hexE1, hexE2, jsonNumValue, show digitsToNat [] = 0 from rfl, hdg]

/-- `parseNumberChars` reads back exactly the printed characters of an
integer when the continuation cannot extend the literal. -/
theorem parseNumberChars_intToChars (i : ℤ) (rest : List Char)
    (hrest : headIsNumberSuffix rest = false) :
    parseNumberChars (intToChars i ++ rest) = some ((i : ℚ), rest) := by
  by_cases hi : i < 0
  · obtain ⟨hdigR, hdot, hexE1, hexE2⟩ := headIsNumberSuffix_props rest hrest
    have hlt : i.natAbs < i.natAbs + 1 := by omega
    have hdig := natToCharsAux_digits (i.natAbs + 1) i.natAbs hlt
    have htake : takeDigits (natToCharsAux (i.natAbs + 1) i.natAbs ++ rest) =
        ((natToCharsAux (i.natAbs + 1) i.natAbs).map digitVal, rest) :=
      takeDigits_append _ _ hdig hdigR
    have hdg := digitsToNat_natToCharsAux (i.natAbs + 1) i.natAbs hlt
    have hnlz := natToChars_no_leading_zero i.natAbs
    rw [natToChars] at hnlz
    cases hch : natToCharsAux (i.natAbs + 1) i.natAbs with
    | nil => exact absurd hch (natToCharsAux_ne_nil _ _ hlt)
    | cons c cs =>
      rw [hch] at htake hdg hnlz
      rw [List.map_cons] at htake hdg hnlz
      rw [show intToChars i = '-' :: natToChars i.natAbs by simp [intToChars, hi],
          natToChars, hch, List.cons_append]
      rw [parseNumberChars]
      simp only [List.head?_cons, Option.some.injEq, decide_True, List.tail_cons, if_true,
        if_pos rfl]
      rw [htake]
      rw [if_neg (by simp), if_neg hnlz, if_neg hdot]
      simp [hexE1, hexE2, jsonNumValue, show digitsToNat [] = 0 from rfl, hdg]
      rw [Int.cast_natAbs, abs_of_neg hi]
      push_cast
      ring
  · have hnn : 0 ≤ i := by omega
    lift i to ℕ using hnn with m
    simp only [intToChars, hi, if_false, Int.natAbs_ofNat]
    rw [parseNumberChars_natToChars m rest hrest]
    norm_num

/-- `parseStringBody` reads back an escape-free, control-free key up to its
closing quote, at any sufficient fuel. -/
theorem parseStringBody_append (ks rest : List Char) :
    ∀ g, ks.length < g → (∀ c ∈ ks, ¬c = '"' ∧ ¬c = '\\' ∧ ¬c.toNat < 32) →
      parseStringBody g (ks ++ '"' :: rest) = some (ks, rest) := by
  induction ks with
  | nil =>
    intro g hg _
    cases g with
    | zero => omega
    | succ g2 => simp [parseStringBody]
  | cons c cs ih =>
    intro g hg h
    cases g with
    | zero => omega
    | succ g2 =>
      obtain ⟨h1, h2, h3⟩ := h c (by simp)
      rw [List.cons_append]
      simp only [parseStringBody, h1, h2, h3, if_false]
      rw [ih g2 (by simp at hg; omega) (fun x hx => h x (by simp [hx]))]
      rfl

/-- `parseString` reads back an escape-free, control-free key up to its
closing quote. -/
theorem parseString_append (ks rest : List Char)
    (h : ∀ c ∈ ks, ¬c = '"' ∧ ¬c = '\\' ∧ ¬c.toNat < 32) :
    parseString (ks ++ '"' :: rest) = some (ks, rest) := by
  rw [parseString]
  exact parseStringBody_append ks rest _ (by simp [List.length_append]; omega) h

/-- A digit character is none of the characters that select a non-number
branch of `parseValue`. -/
theorem isDigitChar_not_special (c : Char) (h : isDigitChar c = true) :
    ¬c = 'n' ∧ ¬c = 't' ∧ ¬c = 'f' ∧ ¬c = '"' ∧ ¬c = '[' ∧ ¬c = '\x7b' := by
  refine ⟨?_, ?_, ?_, ?_, ?_, ?_⟩ <;> (rintro rfl; exact absurd h (by decide))

/-- `parseValue` reads back a printed boolean at any fuel. -/
theorem parseValue_bool (f : Nat) (b : Bool) (rest : List Char) :
    parseValue (f + 1) (boolChars b ++ rest) = some (.bool b, rest) := by
  cases b with
  | true =>
    rw [show boolChars true = ['t', 'r', 'u', 'e'] from rfl]
    simp [parseValue, stripChars]
  | false =>
    rw [show boolChars false = ['f', 'a', 'l', 's', 'e'] from rfl]
    simp [parseValue, stripChars]

/-- `parseValue` reads back a printed integer at any fuel when the
continuation cannot extend the literal. -/
theorem parseValue_int (f : Nat) (i : ℤ) (rest : List Char)
    (hrest : headIsNumberSuffix rest = false) :
    parseValue (f + 1) (intToChars i ++ rest) = some (.num (i : ℚ), rest) := by
  have hnum := parseNumberChars_intToChars i rest hrest
  by_cases hi : i < 0
  · rw [show intToChars i ++ rest = '-' :: (natToChars i.natAbs ++ rest) by
      simp [intToChars, hi]]
    rw [parseValue]
    rw [show intToChars i ++ rest = '-' :: (natToChars i.natAbs ++ rest) by
      simp [intToChars, hi]] at hnum
    simp only [show ¬('-' = 'n') from by decide, show ¬('-' = 't') from by decide,
      show ¬('-' = 'f') from by decide, show ¬('-' = '"') from by decide,
      show ¬('-' = '[') from by decide, show ¬('-' = '\x7b') from by decide,
      if_false, if_pos (by simp : ('-' = '-' || isDigitChar '-') = true)]
    rw [hnum]
    rfl
  · have hnn : 0 ≤ i := by omega
    have hch : intToChars i = natToChars i.natAbs := by simp [intToChars, hi]
    have hlt : i.natAbs < i.natAbs + 1 := by omega
    have hne := natToCharsAux_ne_nil (i.natAbs + 1) i.natAbs hlt
    have hdig := natToCharsAux_digits (i.natAbs + 1) i.natAbs hlt
    cases hcc : natToCharsAux (i.natAbs + 1) i.natAbs with
    | nil => exact absurd hcc hne
    | cons c cs =>
      have hc : isDigitChar c = true := hdig c (by rw [hcc]; simp)
      obtain ⟨s1, s2, s3, s4, s5, s6⟩ := isDigitChar_not_special c hc
      have hshape : intToChars i ++ rest = c :: (cs ++ rest) := by
        rw [hch, natToChars, hcc]; rfl
      rw [hshape]
      rw [hshape] at hnum
      rw [parseValue]
      simp only [s1, s2, s3, s4, s5, s6, if_false,
        if_pos (by simp [hc] : (c = '-' || isDigitChar c) = true)]
      rw [hnum]
      rfl

/-- `skipWs` is the identity on a list not starting with whitespace. -/
theorem skipWs_cons_of_not_ws (c : Char) (r : List Char) (h : isJsonWs c = false) :
    skipWs (c :: r) = c :: r := by
  simp [skipWs, h]

/-- Digit characters are not JSON whitespace. -/
theorem isDigitChar_not_ws (c : Char) (h : isDigitChar c = true) : isJsonWs c = false := by
  simp only [isJsonWs, Bool.or_eq_false_iff, decide_eq_false_iff_not]
  refine ⟨⟨⟨?_, ?_⟩, ?_⟩, ?_⟩ <;> (rintro rfl; exact absurd h (by decide))

/-- A printed boolean does not start with whitespace. -/
theorem skipWs_boolChars (b : Bool) (r : List Char) :
    skipWs (boolChars b ++ r) = boolChars b ++ r := by
  cases b with
  | false =>
    rw [show boolChars false ++ r = 'f' :: ("alse".data ++ r) from rfl]
    exact skipWs_cons_of_not_ws _ _ (by decide)
  | true =>
    rw [show boolChars true ++ r = 't' :: ("rue".data ++ r) from rfl]
    exact skipWs_cons_of_not_ws _ _ (by decide)

/-- A printed integer does not start with whitespace. -/
theorem skipWs_intToChars (i : ℤ) (r : List Char) :
    skipWs (intToChars i ++ r) = intToChars i ++ r := by
  by_cases hi : i < 0
  · rw [show intToChars i = '-' :: natToChars i.natAbs by simp [intToChars, hi],
        List.cons_append]
    exact skipWs_cons_of_not_ws _ _ (by decide)
  · rw [show intToChars i = natToChars i.natAbs by simp [intToChars, hi]]
    cases hch : natToCharsAux (i.natAbs + 1) i.natAbs with
    | nil => exact absurd hch (natToCharsAux_ne_nil _ _ (by omega))
    | cons c cs =>
      have hc := natToCharsAux_digits (i.natAbs + 1) i.natAbs (by omega) c
        (by rw [hch]; simp)
      rw [natToChars, hch, List.cons_append]
      exact skipWs_cons_of_not_ws _ _ (isDigitChar_not_ws c hc)

/-- A printed object member does not start with whitespace. -/
theorem skipWs_memberChars (key vchars r : List Char) :
    skipWs (memberChars key vchars ++ r) = memberChars key vchars ++ r := by
  rw [memberChars, List.cons_append]
  exact skipWs_cons_of_not_ws _ _ (by decide)

/-- `parseMembers` reads one final `"key":value` member followed by the
closing brace. -/
theorem parseMembers_last (f : Nat) (key vchars rest : List Char) (v : JsonValue)
    (hkey : ∀ c ∈ key, ¬c = '"' ∧ ¬c = '\\' ∧ ¬c.toNat < 32)
    (hvws : skipWs (vchars ++ '\x7d' :: rest) = vchars ++ '\x7d' :: rest)
    (hv : parseValue f (vchars ++ '\x7d' :: rest) = some (v, '\x7d' :: rest)) :
    parseMembers (f + 1) (memberChars key vchars ++ '\x7d' :: rest) =
      some ([(String.mk key, v)], rest) := by
  rw [show memberChars key vchars ++ '\x7d' :: rest =
      '"' :: (key ++ '"' :: (':' :: (vchars ++ '\x7d' :: rest))) by
    simp [memberChars]]
  rw [parseMembers.eq_def]
  simp only [parseString_append key _ hkey,
    skipWs_cons_of_not_ws ':' _ (by decide), hvws, hv,
    skipWs_cons_of_not_ws '\x7d' _ (by decide)]

/-- `parseMembers` reads one `"key":value` member followed by a comma and
further members. -/
theorem parseMembers_cons (f : Nat) (key vchars tail rest : List Char) (v : JsonValue)
    (ms : List (String × JsonValue))
    (hkey : ∀ c ∈ key, ¬c = '"' ∧ ¬c = '\\' ∧ ¬c.toNat < 32)
    (hvws : skipWs (vchars ++ ',' :: tail) = vchars ++ ',' :: tail)
    (hv : parseValue f (vchars ++ ',' :: tail) = some (v, ',' :: tail))
    (htws : skipWs tail = tail)
    (htail : parseMembers f tail = some (ms, rest)) :
    parseMembers (f + 1) (memberChars key vchars ++ ',' :: tail) =
      some ((String.mk key, v) :: ms, rest) := by
  rw [show memberChars key vchars ++ ',' :: tail =
      '"' :: (key ++ '"' :: (':' :: (vchars ++ ',' :: tail))) by
    simp [memberChars]]
  rw [parseMembers.eq_def]
  simp only [parseString_append key _ hkey,
    skipWs_cons_of_not_ws ':' _ (by decide), hvws, hv,
    skipWs_cons_of_not_ws ',' _ (by decide), htws, htail]
  rfl

/-- `parseValue` reads back the full serialized Preferences object at any
sufficient fuel (seven above any base covers the five members and the
nesting). -/
theorem parseValue_stringifyPrefs (f : Nat) (p : Preferences) (rest : List Char) :
    parseValue (f + 7) (stringifyPrefsChars p ++ rest) =
      some (encodePreferences p, rest) := by
  have hkAR : ∀ c ∈ keyAutoRefresh, ¬c = '"' ∧ ¬c = '\\' ∧ ¬c.toNat < 32 := by decide
  have hkRI : ∀ c ∈ keyRefreshInterval, ¬c = '"' ∧ ¬c = '\\' ∧ ¬c.toNat < 32 := by decide
  have hkSB : ∀ c ∈ keyShowBattery, ¬c = '"' ∧ ¬c = '\\' ∧ ¬c.toNat < 32 := by decide
  have hkSN : ∀ c ∈ keyShowNetwork, ¬c = '"' ∧ ¬c = '\\' ∧ ¬c.toNat < 32 := by decide
  have hkSU : ∀ c ∈ keyShowUptime, ¬c = '"' ∧ ¬c = '\\' ∧ ¬c.toNat < 32 := by decide
  have hm5 : parseMembers (f + 2)
      (memberChars keyShowUptime (boolChars p.showUptime) ++ '\x7d' :: rest) =
        some ([(String.mk keyShowUptime, .bool p.showUptime)], rest) :=
    parseMembers_last (f + 1) _ _ _ _ hkSU (skipWs_boolChars p.showUptime _)
      (parseValue_bool f p.showUptime _)
  have hm4 : parseMembers (f + 3)
      (memberChars keyShowNetwork (boolChars p.showNetwork) ++ ',' ::
        (memberChars keyShowUptime (boolChars p.showUptime) ++ '\x7d' :: rest)) =
        some ([(String.mk keyShowNetwork, .bool p.showNetwork),
               (String.mk keyShowUptime, .bool p.showUptime)], rest) :=
    parseMembers_cons (f + 2) _ _ _ _ _ _ hkSN (skipWs_boolChars p.showNetwork _)
      (parseValue_bool (f + 1) p.showNetwork _) (skipWs_memberChars keyShowUptime _ _) hm5
  have hm3 : parseMembers (f + 4)
      (memberChars keyShowBattery (boolChars p.showBattery) ++ ',' ::
        (memberChars keyShowNetwork (boolChars p.showNetwork) ++ ',' ::
          (memberChars keyShowUptime (boolChars p.showUptime) ++ '\x7d' :: rest))) =
        some ([(String.mk keyShowBattery, .bool p.showBattery),
               (String.mk keyShowNetwork, .bool p.showNetwork),
               (String.mk keyShowUptime, .bool p.showUptime)], rest) :=
    parseMembers_cons (f + 3) _ _ _ _ _ _ hkSB (skipWs_boolChars p.showBattery _)
      (parseValue_bool (f + 2) p.showBattery _) (skipWs_memberChars keyShowNetwork _ _) hm4
  have hm2 : parseMembers (f + 5)
      (memberChars keyRefreshInterval (intToChars p.refreshInterval) ++ ',' ::
        (memberChars keyShowBattery (boolChars p.showBattery) ++ ',' ::
          (memberChars keyShowNetwork (boolChars p.showNetwork) ++ ',' ::
            (memberChars keyShowUptime (boolChars p.showUptime) ++ '\x7d' :: rest)))) =
        some ([(String.mk keyRefreshInterval, .num (p.refreshInterval : ℚ)),
               (String.mk keyShowBattery, .bool p.showBattery),
               (String.mk keyShowNetwork, .bool p.showNetwork),
               (String.mk keyShowUptime, .bool p.showUptime)], rest) :=
    parseMembers_cons (f + 4) _ _ _ _ _ _ hkRI (skipWs_intToChars p.refreshInterval _)
      (parseValue_int (f + 3) p.refreshInterval _ (by rfl))
      (skipWs_memberChars keyShowBattery _ _) hm3
  have hm1 : parseMembers (f + 6)
      (memberChars keyAutoRefresh (boolChars p.autoRefresh) ++ ',' ::
        (memberChars keyRefreshInterval (intToChars p.refreshInterval) ++ ',' ::
          (memberChars keyShowBattery (boolChars p.showBattery) ++ ',' ::
            (memberChars keyShowNetwork (boolChars p.showNetwork) ++ ',' ::
              (memberChars keyShowUptime (boolChars p.showUptime) ++ '\x7d' :: rest))))) =
        some ([(String.mk keyAutoRefresh, .bool p.autoRefresh),
               (String.mk keyRefreshInterval, .num (p.refreshInterval : ℚ)),
               (String.mk keyShowBattery, .bool p.showBattery),
               (String.mk keyShowNetwork, .bool p.showNetwork),
               (String.mk keyShowUptime, .bool p.showUptime)], rest) :=
    parseMembers_cons (f + 5) _ _ _ _ _ _ hkAR (skipWs_boolChars p.autoRefresh _)
      (parseValue_bool (f + 4) p.autoRefresh _) (skipWs_memberChars keyRefreshInterval _ _) hm2
  have hshape : stringifyPrefsChars p ++ rest =
      '\x7b' ::
        (memberChars keyAutoRefresh (boolChars p.autoRefresh) ++ ',' ::
          (memberChars keyRefreshInterval (intToChars p.refreshInterval) ++ ',' ::
            (memberChars keyShowBattery (boolChars p.showBattery) ++ ',' ::
              (memberChars keyShowNetwork (boolChars p.showNetwork) ++ ',' ::
                (memberChars keyShowUptime (boolChars p.showUptime) ++ '\x7d' :: rest))))) := by
    simp [stringifyPrefsChars]
  rw [hshape, parseValue.eq_def]
  have hhead : (memberChars keyAutoRefresh (boolChars p.autoRefresh) ++ ',' ::
      (memberChars keyRefreshInterval (intToChars p.refreshInterval) ++ ',' ::
        (memberChars keyShowBattery (boolChars p.showBattery) ++ ',' ::
          (memberChars keyShowNetwork (boolChars p.showNetwork) ++ ',' ::
            (memberChars keyShowUptime (boolChars p.showUptime) ++ '\x7d' :: rest))))).head? =
      some '"' := by
    simp [memberChars]
  simp only [show ¬('\x7b' = 'n') from by decide, show ¬('\x7b' = 't') from by decide,
    show ¬('\x7b' = 'f') from by decide, show ¬('\x7b' = '"') from by decide,
    show ¬('\x7b' = '[') from by decide, if_false, if_pos rfl, skipWs_memberChars, hhead,
    show ¬(some '"' = some '\x7d') from by decide, hm1, Option.map_some]
  rfl

/-- `JSON.parse` inverts `JSON.stringify` on every Preferences object. -/
theorem jsonParse_stringifyPreferences (p : Preferences) :
    jsonParse (stringifyPreferences p) = some (encodePreferences p) := by
  have hdata : (stringifyPreferences p).data = stringifyPrefsChars p := rfl
  have hlen6 : 6 ≤ (stringifyPreferences p).length := by
    have h : (stringifyPreferences p).length = (stringifyPrefsChars p).length := rfl
    rw [h]
    simp [stringifyPrefsChars, memberChars]
    omega
  obtain ⟨g, hg⟩ : ∃ g, (stringifyPreferences p).length + 1 = g + 7 :=
    ⟨(stringifyPreferences p).length - 6, by omega⟩
  have hsw : skipWs (stringifyPrefsChars p) = stringifyPrefsChars p := by
    rw [stringifyPrefsChars]
    exact skipWs_cons_of_not_ws _ _ (by decide)
  have hparse := parseValue_stringifyPrefs g p []
  rw [List.append_nil] at hparse
  rw [jsonParse, hg, hdata, hsw, hparse]
  rfl

/-- C6: a stored preferences value that is absent (or empty, hence falsy) or
fails to parse as JSON makes `loadPreferences` install exactly the
documented default Preferences object, and `loadPreferences` is total (no
exception escapes). -/
theorem loadPreferences_defaults :
    (loadPreferences none =
      JsonValue.obj [("autoRefresh", .bool false), ("refreshInterval", .num 30000),
        ("showBattery", .bool true), ("showNetwork", .bool true),
        ("showUptime", .bool true)]) ∧
    (∀ s : String, jsonParse s = none →
      loadPreferences (some s) =
        JsonValue.obj [("autoRefresh", .bool false), ("refreshInterval", .num 30000),
          ("showBattery", .bool true), ("showNetwork", .bool true),
          ("showUptime", .bool true)]) := by
  refine ⟨rfl, fun s h => ?_⟩
  rw [loadPreferences]
  by_cases hs : s = ""
  · rw [if_pos hs]; rfl
  · rw [if_neg hs, h]; rfl

/-- Witness for C6: a concrete corrupt stored value yields the defaults. -/
theorem loadPreferences_defaults_witness :
    loadPreferences (some "not json") =
      JsonValue.obj [("autoRefresh", .bool false), ("refreshInterval", .num 30000),
        ("showBattery", .bool true), ("showNetwork", .bool true),
        ("showUptime", .bool true)] :=
  loadPreferences_defaults.2 "not json" rfl

/-- C10: `loadPreferences` performs no shape validation or default merging:
every stored string that `JSON.parse` accepts is installed verbatim as the
preferences — including `null` and objects missing required fields. -/
theorem loadPreferences_verbatim :
    (∀ (s : String) (v : JsonValue), jsonParse s = some v →
      loadPreferences (some s) = v) ∧
    loadPreferences (some "null") = JsonValue.null := by
  constructor
  · intro s v h
    rw [loadPreferences]
    have hs : ¬s = "" := by
      rintro rfl
      rw [show jsonParse "" = none from rfl] at h
      cases h
    rw [if_neg hs, h]
  · rfl

/-- Witness for C10: an object missing every required preferences field is
installed as-is. -/
theorem loadPreferences_verbatim_witness :
    loadPreferences (some "\x7b\"a\":true\x7d") = JsonValue.obj [("a", JsonValue.bool true)] :=
  loadPreferences_verbatim.1 "\x7b\"a\":true\x7d" (JsonValue.obj [("a", JsonValue.bool true)]) rfl

/-- C8: saving any Preferences object with `savePreferences` and loading it
back with `loadPreferences` in a fresh session reproduces the identical
preferences value (the JSON serialize-then-parse round trip through the
stored key). -/
theorem preferences_roundtrip (p : Preferences) :
    loadPreferences (savePreferences p) = encodePreferences p := by
  rw [savePreferences, loadPreferences]
  have hne : ¬stringifyPreferences p = "" := by
    intro h
    have hd := congrArg String.data h
    rw [show (stringifyPreferences p).data = stringifyPrefsChars p from rfl] at hd
    simp [stringifyPrefsChars] at hd
  rw [if_neg hne, jsonParse_stringifyPreferences p]
